import Mathlib

/-!
Verification development for the vobox-pi-player serial bridge
(src/translator.py).  The main loop of `translator.py` is embedded
shallowly: money amounts (Python `Decimal`) are rationals, wall-clock
times are rationals, and every `time.time()` read inside one loop
iteration is modelled by the single `now` value of that iteration.  Serial
input is modelled by the classified line events the main-loop regexes
distinguish; lines read by the inner credit-wait loop and by the
credit-arming routine are supplied as explicit oracle lists.  The
network outcome of the audit-log HTTP call is an explicit
`Except String Nat` oracle (`Except.error` models a raised exception
inside the try-block of `log_vend_event`).  Console output other than
the status line printed by `log_vend_event` is not modelled.
-/

namespace Vobox

/-- Classified serial line, one constructor per regex (or exact string
match) that the main loop of `translator.py` distinguishes; `other` covers
nonempty lines matching none of them.  The credit amount of
`c,STATUS,IDLE,<amount>` and the price of `c,STATUS,VEND,<price>,<prod>`
are carried already parsed as rationals; `prodParsed` is the result of
Python `int(prodRaw)` (`none` models `ValueError`). -/
inductive Line where
  | nIdle : Line
  | nCredit : Line
  | vmcIdleCredit (amount : ℚ) : Line
  | vmcIdle : Line
  | vmcEnabled : Line
  | vendSuccess : Line
  | vmcVend (price : ℚ) (prodRaw : String) (prodParsed : Option Int) : Line
  | vmcStartErr (code : Int) : Line
  | nErr (code : String) : Line
  | nResult (res : Int) : Line
  | other : Line
deriving DecidableEq, Repr

/-- Matches VMC_IDLE_CREDIT_RE. -/
def Line.isVmcIdleCredit : Line → Bool
  | .vmcIdleCredit _ => true
  | _ => false

/-- Matches VMC_IDLE_RE. -/
def Line.isVmcIdle : Line → Bool
  | .vmcIdle => true
  | _ => false

/-- Matches VMC_ENABLED_RE. -/
def Line.isVmcEnabled : Line → Bool
  | .vmcEnabled => true
  | _ => false

/-- Matches VMC_START_ERR_RE. -/
def Line.isVmcStartErr : Line → Bool
  | .vmcStartErr _ => true
  | _ => false

/-- Matches N_IDLE_RE. -/
def Line.isNIdle : Line → Bool
  | .nIdle => true
  | _ => false

/-- Matches N_CREDIT_RE. -/
def Line.isNCredit : Line → Bool
  | .nCredit => true
  | _ => false

/-- A command written to the transport by the main loop (the startup and
cleanup commands are outside the embedded region). -/
inductive Cmd where
  | cStop : Cmd
  | dEnd : Cmd
  | cVend (price : ℚ) : Cmd
  | dReq (price : ℚ) (prod : ℕ) : Cmd
  | cStart (credit : ℚ) : Cmd
deriving DecidableEq, Repr

/-- One call to `log_vend_event`: the payload of the audit-log request
(source lines 70-87 of translator.py). -/
structure LogEvent where
  eventType : String
  price : ℚ
  nayaxProd : Option ℕ
  reason : Option String
  compMode : Bool
deriving DecidableEq, Repr

/-- The `pending` correlation tuple `(price, vmc_prod_raw, nayax_prod)`. -/
structure PendingVend where
  price : ℚ
  vmcProdRaw : String
  nayaxProd : ℕ
deriving DecidableEq, Repr

/-- Configuration consumed by the main loop: config.env MAX_CREDIT plus
the argparse options.  `compCredit = none` means --comp-credit was not
given; in the program `comp_active` is initialized to
`comp_credit is not None`, so a state with compActive set and
compCredit absent is unreachable. -/
structure Config where
  maxCredit : ℚ
  compCredit : Option ℚ
  compOneShot : Bool
  nayaxTimeout : ℚ
  creditWait : ℚ
  vmcVendTimeout : ℚ
  creditTtl : ℚ
deriving DecidableEq, Repr

/-- The mutable loop state of `main` (translator.py lines 222-235 plus
`comp_active`). -/
structure LoopState where
  compActive : Bool
  vmcHasCredit : Bool
  vmcCreditTs : ℚ
  vmcBusy : Bool
  vmcVendDeadline : ℚ
  awaitingNayax : Bool
  pending : Option PendingVend
  nayaxDeadline : ℚ
  nayaxCreditReady : Bool
  currentVendPrice : Option ℚ
  currentVendNayaxProd : Option ℕ
  currentVendCompMode : Bool
deriving DecidableEq, Repr

/-- Loop state on entry to the main read loop (translator.py lines
222-235): everything cleared, comp mode active iff --comp-credit given. -/
def initState (cfg : Config) : LoopState :=
  { compActive := cfg.compCredit.isSome
    vmcHasCredit := false
    vmcCreditTs := 0
    vmcBusy := false
    vmcVendDeadline := 0
    awaitingNayax := false
    pending := none
    nayaxDeadline := 0
    nayaxCreditReady := false
    currentVendPrice := none
    currentVendNayaxProd := none
    currentVendCompMode := false }

/-- `current_arm_amount` (line 237): the comp amount when comp mode is
active, else MAX_CREDIT.  In the program compActive implies the comp
amount is present; the `getD 0` default is never consulted on
reachable states. -/
def current_arm_amount (cfg : Config) (s : LoopState) : ℚ :=
  if s.compActive then cfg.compCredit.getD 0 else cfg.maxCredit

/-- The audit-log call (lines 70-87).  Everything inside the function
body runs under `try`; `netRes` is the outcome of the network
interaction (`Except.error` = an exception was raised inside the body).
The function itself always returns the line it prints - the exception
never propagates to the caller. -/
def log_vend_event (netRes : Except String Nat) (ev : LogEvent) : String :=
  match netRes with
  | Except.ok code => "📡 Logged " ++ ev.eventType ++ ": HTTP " ++ toString code
  | Except.error e => "⚠️ Failed to log vend event: " ++ e

/-- The inner observation window of one attempt of `arm_credit_safe`
(lines 134-147): the listed lines are those read before the 0.9s window
expires.  The first IDLE-with-credit line makes the whole routine
succeed; the first START-error line breaks out of the wait of this attempt
(the attempt fails); any other line is ignored.  An exhausted list
models the window expiring. -/
def attemptObserve : List Line → Bool
  | [] => false
  | l :: rest =>
    if l.isVmcIdleCredit then true
    else if l.isVmcStartErr then false
    else attemptObserve rest

/-- `for _ in range(12)` (line 132). -/
def armAttempts : ℕ := 12

/-- The inner observation window per attempt, `time.time() + 0.9`
(line 134), in seconds. -/
def armObserveWindow : ℚ := 9 / 10

/-- The fixed backoff between attempts, `time.sleep(0.4)` (line 148),
in seconds. -/
def armBackoff : ℚ := 2 / 5

/-- The attempt loop of `arm_credit_safe`: each attempt first sends
`C,START,<credit>` and then observes its window of responses. -/
def armLoop (credit : ℚ) : ℕ → List (List Line) → Bool × List Cmd
  | 0, _ => (false, [])
  | n + 1, resps =>
    if attemptObserve (resps.headD []) then (true, [Cmd.cStart credit])
    else
      let r := armLoop credit n resps.tail
      (r.1, Cmd.cStart credit :: r.2)

/-- `arm_credit_safe` (lines 130-150): up to 12 attempts, each sending
the arm command and observing responses; returns whether arming
succeeded together with the commands sent. -/
def arm_credit_safe (credit : ℚ) (resps : List (List Line)) : Bool × List Cmd :=
  armLoop credit armAttempts resps

/-- `maybe_arm` (lines 240-250): do nothing while the VMC is busy or
already has credit; in normal mode additionally require a Nayax CREDIT
session; otherwise run `arm_credit_safe` and record the outcome in
`vmc_has_credit` (and the freshness timestamp on success). -/
def maybe_arm (cfg : Config) (s : LoopState) (now : ℚ)
    (armResps : List (List Line)) : LoopState × List Cmd :=
  if s.vmcBusy = true ∨ s.vmcHasCredit = true then (s, [])
  else if s.compActive = false ∧ s.nayaxCreditReady = false then (s, [])
  else
    let r := arm_credit_safe (current_arm_amount cfg s) armResps
    ({ s with
        vmcHasCredit := r.1
        vmcCreditTs := if r.1 then now else s.vmcCreditTs }, r.2)

/-- The result of one main-loop iteration: the new state, the commands
written to the transport, the audit-log events emitted, and the lines
printed by `log_vend_event` calls. -/
structure StepOut where
  state : LoopState
  cmds : List Cmd
  logs : List LogEvent
  prints : List String
deriving DecidableEq, Repr

/-- Credit-staleness expiry (lines 263-264): drop the credit flag once
the last IDLE-with-credit sighting is older than the TTL. -/
def staleCheck (cfg : Config) (s : LoopState) (now : ℚ) : LoopState :=
  if s.vmcHasCredit = true ∧ s.vmcCreditTs ≠ 0 ∧ now - s.vmcCreditTs > cfg.creditTtl
  then { s with vmcHasCredit := false } else s

/-- The VMC vend watchdog (lines 267-280): on expiry send `C,STOP` and
`D,END`, reset the busy/credit flags and the vend context, and drop any
Nayax wait, without logging anything. -/
def vmcWatchdog (s : LoopState) (now : ℚ) : LoopState × List Cmd :=
  if s.vmcBusy = true ∧ s.vmcVendDeadline ≠ 0 ∧ now > s.vmcVendDeadline then
    ({ s with
        vmcBusy := false
        vmcHasCredit := false
        vmcCreditTs := 0
        vmcVendDeadline := 0
        currentVendPrice := none
        currentVendNayaxProd := none
        currentVendCompMode := false
        awaitingNayax := false
        pending := none }, [Cmd.cStop, Cmd.dEnd])
  else (s, [])

/-- The Nayax timeout watchdog (lines 283-304): on expiry log a denial
with reason nayax_timeout when a vend price is recorded, send `C,STOP`
and `D,END`, and clear the whole vend context. -/
def nayaxWatchdog (s : LoopState) (now : ℚ)
    (netRes : Except String Nat) : StepOut :=
  if s.awaitingNayax = true ∧ now > s.nayaxDeadline then
    let lp :=
      match s.currentVendPrice with
      | some price =>
        let ev : LogEvent :=
          { eventType := "nayax_payment.denied", price := price
            nayaxProd := s.currentVendNayaxProd
            reason := some "nayax_timeout", compMode := false }
        ([ev], [log_vend_event netRes ev])
      | none => ([], [])
    { state :=
        { s with
            awaitingNayax := false
            pending := none
            vmcHasCredit := false
            vmcCreditTs := 0
            vmcBusy := false
            vmcVendDeadline := 0
            currentVendPrice := none
            currentVendNayaxProd := none
            currentVendCompMode := false }
      cmds := [Cmd.cStop, Cmd.dEnd]
      logs := lp.1
      prints := lp.2 }
  else { state := s, cmds := [], logs := [], prints := [] }

/-- The watchdog block at the top of every loop iteration (lines
261-304): credit staleness, then the VMC vend watchdog, then the Nayax
timeout watchdog, in source order. -/
def watchdogs (cfg : Config) (s0 : LoopState) (now : ℚ)
    (netRes : Except String Nat) : StepOut :=
  let t2 := vmcWatchdog (staleCheck cfg s0 now) now
  let o := nayaxWatchdog t2.1 now netRes
  { state := o.state, cmds := t2.2 ++ o.cmds, logs := o.logs, prints := o.prints }

/-- The inner wait for a Nayax CREDIT session (lines 386-397): scan the
lines read before the `credit_wait` window expires; the first
`d,STATUS,CREDIT` makes the session ready (break); `d,STATUS,IDLE`
re-clears the (already false) flag and the scan continues; the window
expiring with no CREDIT leaves the session not ready. -/
def creditWaitScan : List Line → Bool
  | [] => false
  | l :: rest => if l.isNCredit then true else creditWaitScan rest

/-- The `c,STATUS,VEND,<price>,<prod>` handler (lines 357-434): set
busy, reject above the armed cap, comp-approve, or wait for a Nayax
session and issue `D,REQ`. -/
def handleVend (cfg : Config) (s0 : LoopState) (now : ℚ)
    (waitLines : List Line) (netRes : Except String Nat)
    (price : ℚ) (prodRaw : String) (prodParsed : Option Int) : StepOut :=
  let s := { s0 with vmcBusy := true }
  if price > current_arm_amount cfg s then
    { state :=
        { s with vmcBusy := false, vmcHasCredit := false
                 vmcCreditTs := 0, vmcVendDeadline := 0 }
      cmds := [Cmd.cStop], logs := [], prints := [] }
  else if s.compActive = true then
    { state :=
        { s with
            currentVendPrice := some price
            currentVendNayaxProd := none
            currentVendCompMode := true
            vmcVendDeadline := now + cfg.vmcVendTimeout }
      cmds := [Cmd.cVend price], logs := [], prints := [] }
  else
    let ready := s.nayaxCreditReady || creditWaitScan waitLines
    let s := { s with nayaxCreditReady := ready }
    if ready = false then
      let ev : LogEvent :=
        { eventType := "nayax_payment.denied", price := price
          nayaxProd := none
          reason := some "no_nayax_credit_session", compMode := false }
      { state :=
          { s with vmcBusy := false, vmcHasCredit := false
                   vmcCreditTs := 0, vmcVendDeadline := 0 }
        cmds := [Cmd.cStop], logs := [ev]
        prints := [log_vend_event netRes ev] }
    else
      let prodInt : Int := prodParsed.getD 0
      -- Python `prod_int & 0xFF` on an arbitrary int equals the
      -- nonnegative residue mod 256, which is Int emod here.
      let nayaxProd : ℕ := (prodInt % 256).toNat
      { state :=
          { s with
              pending := some { price := price, vmcProdRaw := prodRaw, nayaxProd := nayaxProd }
              currentVendPrice := some price
              currentVendNayaxProd := some nayaxProd
              currentVendCompMode := false
              awaitingNayax := true
              nayaxDeadline := now + cfg.nayaxTimeout
              vmcVendDeadline := now + cfg.vmcVendTimeout }
        cmds := [Cmd.dReq price nayaxProd], logs := [], prints := [] }

/-- The `c,VEND,SUCCESS` handler (lines 332-354): log an approval only
when a vend price is recorded, clear the VMC-side vend context, and
consume one-shot comp mode. -/
def handleVendSuccess (cfg : Config) (s : LoopState)
    (netRes : Except String Nat) : StepOut :=
  let lp :=
    match s.currentVendPrice with
    | some price =>
      let ev : LogEvent :=
        { eventType := "nayax_payment.approved", price := price
          nayaxProd := s.currentVendNayaxProd
          reason := none, compMode := s.currentVendCompMode }
      ([ev], [log_vend_event netRes ev])
    | none => ([], [])
  let s1 :=
    { s with
        vmcBusy := false
        vmcHasCredit := false
        vmcCreditTs := 0
        vmcVendDeadline := 0
        currentVendPrice := none
        currentVendNayaxProd := none
        currentVendCompMode := false }
  let s2 :=
    if s1.compActive = true ∧ cfg.compOneShot = true
    then { s1 with compActive := false } else s1
  { state := s2, cmds := [], logs := lp.1, prints := lp.2 }

/-- The `d,ERR,"<code>"` handler (lines 437-461), reached only while
awaiting a Nayax answer with a pending tuple. -/
def handleNayaxErr (s : LoopState) (netRes : Except String Nat)
    (code : String) (p : PendingVend) : StepOut :=
  let ev : LogEvent :=
    { eventType := "nayax_payment.denied", price := p.price
      nayaxProd := some p.nayaxProd
      reason := some ("nayax_err_" ++ code), compMode := false }
  { state :=
      { s with
          awaitingNayax := false
          pending := none
          vmcHasCredit := false
          vmcCreditTs := 0
          vmcBusy := false
          vmcVendDeadline := 0
          currentVendPrice := none
          currentVendNayaxProd := none
          currentVendCompMode := false }
    cmds := [Cmd.cStop, Cmd.dEnd]
    logs := [ev]
    prints := [log_vend_event netRes ev] }

/-- The `d,STATUS,RESULT,<res>,...` handler (lines 463-499), reached
only while awaiting a Nayax answer with a pending tuple: result 1
approves at price (the VMC stays busy awaiting its own SUCCESS line),
anything else denies with a cancel; both paths end the session. -/
def handleNayaxResult (cfg : Config) (s : LoopState) (now : ℚ)
    (netRes : Except String Nat) (res : Int) (p : PendingVend) : StepOut :=
  if res = 1 then
    { state :=
        { s with
            currentVendPrice := some p.price
            currentVendNayaxProd := some p.nayaxProd
            currentVendCompMode := false
            vmcVendDeadline := now + cfg.vmcVendTimeout
            awaitingNayax := false
            pending := none
            vmcHasCredit := false
            vmcCreditTs := 0 }
      cmds := [Cmd.cVend p.price, Cmd.dEnd], logs := [], prints := [] }
  else
    let ev : LogEvent :=
      { eventType := "nayax_payment.denied", price := p.price
        nayaxProd := some p.nayaxProd
        reason := some ("nayax_denied_res_" ++ toString res), compMode := false }
    { state :=
        { s with
            currentVendPrice := none
            currentVendNayaxProd := none
            currentVendCompMode := false
            vmcBusy := false
            vmcVendDeadline := 0
            awaitingNayax := false
            pending := none
            vmcHasCredit := false
            vmcCreditTs := 0 }
      cmds := [Cmd.cStop, Cmd.dEnd]
      logs := [ev]
      prints := [log_vend_event netRes ev] }

/-- The shared tail of the line dispatch: lines that reach the bottom of
the loop body call `maybe_arm` (line 501). -/
def fallThrough (cfg : Config) (s : LoopState) (now : ℚ)
    (armResps : List (List Line)) : StepOut :=
  let r := maybe_arm cfg s now armResps
  { state := r.1, cmds := r.2, logs := [], prints := [] }

/-- Processing of one nonempty classified line (lines 316-501): the
Nayax session flags and VMC credit flags are updated first, in source
order, then the line is dispatched to its handler; unhandled lines fall
through to `maybe_arm`. -/
def processLine (cfg : Config) (s0 : LoopState) (now : ℚ)
    (waitLines : List Line) (armResps : List (List Line))
    (netRes : Except String Nat) (l : Line) : StepOut :=
  let s1 := if l.isNIdle then { s0 with nayaxCreditReady := false } else s0
  let s2 := if l.isNCredit then { s1 with nayaxCreditReady := true } else s1
  let s3 :=
    if l.isVmcIdleCredit then { s2 with vmcHasCredit := true, vmcCreditTs := now }
    else if l.isVmcIdle then { s2 with vmcHasCredit := false }
    else if l.isVmcEnabled then
      (if s2.vmcBusy then s2 else { s2 with vmcHasCredit := false })
    else s2
  match l with
  | .vendSuccess => handleVendSuccess cfg s3 netRes
  | .vmcVend price prodRaw prodParsed =>
    handleVend cfg s3 now waitLines netRes price prodRaw prodParsed
  | .nErr code =>
    match s3.pending, s3.awaitingNayax with
    | some p, true => handleNayaxErr s3 netRes code p
    | _, _ => fallThrough cfg s3 now armResps
  | .nResult res =>
    match s3.pending, s3.awaitingNayax with
    | some p, true => handleNayaxResult cfg s3 now netRes res p
    | _, _ => fallThrough cfg s3 now armResps
  | _ => fallThrough cfg s3 now armResps

/-- What the serial read of one iteration produced: a read timeout
(`noLine`, which still runs `maybe_arm`), a line that is empty after
stripping (skipped entirely), or a nonempty line. -/
inductive RawInput where
  | noLine : RawInput
  | blank : RawInput
  | line (l : Line) : RawInput
deriving DecidableEq, Repr

/-- The oracle data of one loop iteration: the current time, what the
read produced, the lines consumed by the inner credit wait (if it
runs), and the per-attempt response lines of `arm_credit_safe` (if it
runs). -/
structure IterInput where
  now : ℚ
  input : RawInput
  waitLines : List Line
  armResps : List (List Line)
deriving DecidableEq, Repr

/-- One full iteration of the main read loop (lines 256-501): watchdogs
first, then line handling or `maybe_arm`. -/
def stepIter (cfg : Config) (s : LoopState) (inp : IterInput)
    (netRes : Except String Nat) : StepOut :=
  let w := watchdogs cfg s inp.now netRes
  match inp.input with
  | .noLine =>
    let r := maybe_arm cfg w.state inp.now inp.armResps
    { state := r.1, cmds := w.cmds ++ r.2, logs := w.logs, prints := w.prints }
  | .blank => w
  | .line l =>
    let o := processLine cfg w.state inp.now inp.waitLines inp.armResps netRes l
    { state := o.state, cmds := w.cmds ++ o.cmds
      logs := w.logs ++ o.logs, prints := w.prints ++ o.prints }

/-- Run the main loop over a list of iteration inputs, with the
audit-log network call succeeding with HTTP 200 throughout. -/
def runLoop (cfg : Config) : LoopState → List IterInput → StepOut
  | s, [] => { state := s, cmds := [], logs := [], prints := [] }
  | s, inp :: rest =>
    let o := stepIter cfg s inp (Except.ok 200)
    let r := runLoop cfg o.state rest
    { state := r.state, cmds := o.cmds ++ r.cmds
      logs := o.logs ++ r.logs, prints := o.prints ++ r.prints }

/-- The VMC vend watchdog condition (line 267). -/
def vmcWatchdogFires (s : LoopState) (now : ℚ) : Prop :=
  s.vmcBusy = true ∧ s.vmcVendDeadline ≠ 0 ∧ now > s.vmcVendDeadline

/-- The Nayax timeout watchdog condition (line 283). -/
def nayaxWatchdogFires (s : LoopState) (now : ℚ) : Prop :=
  s.awaitingNayax = true ∧ now > s.nayaxDeadline

/-- A configuration in normal (non-comp) mode: MAX_CREDIT 10.00 and the
argparse defaults (--nayax-timeout 15, --credit-wait 6,
--vmc-vend-timeout 25, --credit-ttl 45). -/
def cfgNormal : Config :=
  { maxCredit := 10, compCredit := none, compOneShot := false
    nayaxTimeout := 15, creditWait := 6, vmcVendTimeout := 25, creditTtl := 45 }

/-- The same configuration with --comp-credit 0.25 (persistent). -/
def cfgComp : Config :=
  { maxCredit := 10, compCredit := some (1 / 4), compOneShot := false
    nayaxTimeout := 15, creditWait := 6, vmcVendTimeout := 25, creditTtl := 45 }

/-- The same configuration with --comp-credit 0.25 --comp-oneshot. -/
def cfgCompOne : Config :=
  { maxCredit := 10, compCredit := some (1 / 4), compOneShot := true
    nayaxTimeout := 15, creditWait := 6, vmcVendTimeout := 25, creditTtl := 45 }

/-- Iteration inputs driving `cfgNormal` from `initState` into a
mid-authorization state: at time 1 a Nayax CREDIT line arrives (and the
fall-through `maybe_arm` arms successfully), at time 2 the VMC requests
a vend of 1.00 for product 7, which issues `D,REQ,1.00,7`. -/
def traceToPending : List IterInput :=
  [ { now := 1, input := RawInput.line Line.nCredit, waitLines := []
      armResps := [[Line.vmcIdleCredit 10]] },
    { now := 2, input := RawInput.line (Line.vmcVend 1 "7" (some 7))
      waitLines := [], armResps := [] } ]

/-- The state reached by `traceToPending`: authorization for the 1.00
vend of product 7 is outstanding (deadline 17), the VMC is busy
(deadline 27), credit armed at time 1. -/
def statePending : LoopState :=
  { compActive := false, vmcHasCredit := true, vmcCreditTs := 1, vmcBusy := true
    vmcVendDeadline := 27, awaitingNayax := true
    pending := some { price := 1, vmcProdRaw := "7", nayaxProd := 7 }
    nayaxDeadline := 17, nayaxCreditReady := true
    currentVendPrice := some 1, currentVendNayaxProd := some 7
    currentVendCompMode := false }

/-- A second vend-request line arriving at time 3, while the vend of
`statePending` is still unresolved. -/
def secondVend : IterInput :=
  { now := 3, input := RawInput.line (Line.vmcVend 2 "8" (some 8))
    waitLines := [], armResps := [] }

/-- A comp-mode vend request at time 0: price 0.25, product 3. -/
def compVendStep : IterInput :=
  { now := 0, input := RawInput.line (Line.vmcVend (1 / 4) "3" (some 3))
    waitLines := [], armResps := [] }

/-- An iteration at time 100 in which the serial read times out: no
line at all arrives. -/
def silentStep : IterInput :=
  { now := 100, input := RawInput.noLine, waitLines := [], armResps := [] }

/-- `initState cfgNormal` with a Nayax CREDIT session already ready. -/
def stateReady : LoopState :=
  { initState cfgNormal with nayaxCreditReady := true }

theorem armLoop_mem_cStart (credit : ℚ) :
    ∀ (n : ℕ) (resps : List (List Line)) (c : Cmd),
      c ∈ (armLoop credit n resps).2 → c = Cmd.cStart credit := by
  intro n
  induction n with
  | zero => intro resps c hc; simp [armLoop] at hc
  | succ k ih =>
    intro resps c hc
    simp only [armLoop] at hc
    by_cases h : attemptObserve (resps.headD []) = true
    · rw [if_pos h] at hc
      simp at hc; simp [hc]
    · rw [if_neg h] at hc
      rcases List.mem_cons.mp hc with h1 | h2
      · exact h1
      · exact ih resps.tail c h2

theorem armLoop_result (credit : ℚ) :
    ∀ (n : ℕ) (resps : List (List Line)),
      (armLoop credit n resps).1 = (resps.take n).any attemptObserve := by
  intro n
  induction n with
  | zero => intro resps; simp [armLoop]
  | succ k ih =>
    intro resps
    cases resps with
    | nil => simp [armLoop, attemptObserve, ih]
    | cons r rest =>
      by_cases h : attemptObserve r = true
      · simp [armLoop, h]
      · simp [armLoop, h, ih]

theorem maybe_arm_mem_cStart (cfg : Config) (s : LoopState) (now : ℚ)
    (ar : List (List Line)) (c : Cmd) (hc : c ∈ (maybe_arm cfg s now ar).2) :
    c = Cmd.cStart (current_arm_amount cfg s) := by
  by_cases h1 : s.vmcBusy = true ∨ s.vmcHasCredit = true
  · simp [maybe_arm, h1] at hc
  · by_cases h2 : s.compActive = false ∧ s.nayaxCreditReady = false
    · simp [maybe_arm, h1, h2] at hc
    · simp [maybe_arm, h1, h2, arm_credit_safe] at hc
      exact armLoop_mem_cStart _ _ _ _ hc

theorem maybe_arm_frame (cfg : Config) (s : LoopState) (now : ℚ)
    (ar : List (List Line)) :
    (maybe_arm cfg s now ar).1.pending = s.pending ∧
    (maybe_arm cfg s now ar).1.awaitingNayax = s.awaitingNayax ∧
    (maybe_arm cfg s now ar).1.vmcVendDeadline = s.vmcVendDeadline ∧
    (maybe_arm cfg s now ar).1.currentVendPrice = s.currentVendPrice ∧
    (maybe_arm cfg s now ar).1.vmcBusy = s.vmcBusy := by
  by_cases h1 : s.vmcBusy = true ∨ s.vmcHasCredit = true
  · simp [maybe_arm, h1]
  · by_cases h2 : s.compActive = false ∧ s.nayaxCreditReady = false
    · simp [maybe_arm, h1, h2]
    · simp [maybe_arm, h1, h2]

theorem staleCheck_frame (cfg : Config) (s : LoopState) (now : ℚ) :
    (staleCheck cfg s now).vmcBusy = s.vmcBusy ∧
    (staleCheck cfg s now).vmcVendDeadline = s.vmcVendDeadline ∧
    (staleCheck cfg s now).awaitingNayax = s.awaitingNayax ∧
    (staleCheck cfg s now).nayaxDeadline = s.nayaxDeadline ∧
    (staleCheck cfg s now).currentVendPrice = s.currentVendPrice ∧
    (staleCheck cfg s now).currentVendNayaxProd = s.currentVendNayaxProd ∧
    (staleCheck cfg s now).pending = s.pending := by
  unfold staleCheck; split <;> simp

theorem watchdogs_fires (cfg : Config) (s : LoopState) (now : ℚ)
    (netRes : Except String Nat)
    (h : vmcWatchdogFires s now ∨ nayaxWatchdogFires s now) :
    (watchdogs cfg s now netRes).cmds = [Cmd.cStop, Cmd.dEnd] ∧
    (watchdogs cfg s now netRes).state.pending = none ∧
    (watchdogs cfg s now netRes).state.awaitingNayax = false ∧
    (watchdogs cfg s now netRes).state.vmcVendDeadline = 0 ∧
    (watchdogs cfg s now netRes).state.currentVendPrice = none ∧
    (watchdogs cfg s now netRes).state.vmcBusy = false ∧
    (vmcWatchdogFires s now → (watchdogs cfg s now netRes).logs = []) ∧
    (¬ vmcWatchdogFires s now →
      (watchdogs cfg s now netRes).logs =
        (match s.currentVendPrice with
         | some price =>
           [{ eventType := "nayax_payment.denied", price := price
              nayaxProd := s.currentVendNayaxProd
              reason := some "nayax_timeout", compMode := false }]
         | none => [])) := by
  obtain ⟨hb, hd, ha, hnd, hcv, hcnp, hp⟩ := staleCheck_frame cfg s now
  by_cases hv : vmcWatchdogFires s now
  · have hv2 : (staleCheck cfg s now).vmcBusy = true ∧
        (staleCheck cfg s now).vmcVendDeadline ≠ 0 ∧
        now > (staleCheck cfg s now).vmcVendDeadline := by
      rw [hb, hd]; exact hv
    simp [watchdogs, vmcWatchdog, nayaxWatchdog, if_pos hv2, hv]
  · have hn : nayaxWatchdogFires s now := h.resolve_left hv
    have hv2 : ¬ ((staleCheck cfg s now).vmcBusy = true ∧
        (staleCheck cfg s now).vmcVendDeadline ≠ 0 ∧
        now > (staleCheck cfg s now).vmcVendDeadline) := by
      rw [hb, hd]; exact hv
    have hn2 : (staleCheck cfg s now).awaitingNayax = true ∧
        now > (staleCheck cfg s now).nayaxDeadline := by
      rw [ha, hnd]; exact hn
    cases hcvs : s.currentVendPrice with
    | none =>
      simp [watchdogs, vmcWatchdog, nayaxWatchdog, if_neg hv2, if_pos hn2, hv,
        hcv, hcvs]
    | some price =>
      simp [watchdogs, vmcWatchdog, nayaxWatchdog, if_neg hv2, if_pos hn2, hv,
        hcv, hcnp, hcvs]

theorem nayaxWatchdog_indep (s : LoopState) (now : ℚ)
    (r1 r2 : Except String Nat) :
    (nayaxWatchdog s now r1).state = (nayaxWatchdog s now r2).state ∧
    (nayaxWatchdog s now r1).cmds = (nayaxWatchdog s now r2).cmds ∧
    (nayaxWatchdog s now r1).logs = (nayaxWatchdog s now r2).logs := by
  by_cases h : s.awaitingNayax = true ∧ now > s.nayaxDeadline <;>
    cases hcv : s.currentVendPrice <;>
    simp [nayaxWatchdog, h, hcv]

theorem watchdogs_indep (cfg : Config) (s : LoopState) (now : ℚ)
    (r1 r2 : Except String Nat) :
    (watchdogs cfg s now r1).state = (watchdogs cfg s now r2).state ∧
    (watchdogs cfg s now r1).cmds = (watchdogs cfg s now r2).cmds ∧
    (watchdogs cfg s now r1).logs = (watchdogs cfg s now r2).logs := by
  obtain ⟨h1, h2, h3⟩ :=
    nayaxWatchdog_indep (vmcWatchdog (staleCheck cfg s now) now).1 now r1 r2
  exact ⟨by simp [watchdogs, h1], by simp [watchdogs, h2], by simp [watchdogs, h3]⟩

theorem handleVend_indep (cfg : Config) (s : LoopState) (now : ℚ)
    (wl : List Line) (r1 r2 : Except String Nat)
    (price : ℚ) (prodRaw : String) (prodParsed : Option Int) :
    (handleVend cfg s now wl r1 price prodRaw prodParsed).state =
      (handleVend cfg s now wl r2 price prodRaw prodParsed).state ∧
    (handleVend cfg s now wl r1 price prodRaw prodParsed).cmds =
      (handleVend cfg s now wl r2 price prodRaw prodParsed).cmds ∧
    (handleVend cfg s now wl r1 price prodRaw prodParsed).logs =
      (handleVend cfg s now wl r2 price prodRaw prodParsed).logs := by
  by_cases hca : s.compActive = true
  · by_cases h1 : cfg.compCredit.getD 0 < price
    · simp [handleVend, current_arm_amount, hca, h1]
    · simp [handleVend, current_arm_amount, hca, h1]
  · by_cases h1 : cfg.maxCredit < price
    · simp [handleVend, current_arm_amount, hca, h1]
    · by_cases h3 : s.nayaxCreditReady = false ∧ creditWaitScan wl = false
      · simp [handleVend, current_arm_amount, hca, h1, h3]
      · simp [handleVend, current_arm_amount, hca, h1, h3]

theorem handleVendSuccess_indep (cfg : Config) (s : LoopState)
    (r1 r2 : Except String Nat) :
    (handleVendSuccess cfg s r1).state = (handleVendSuccess cfg s r2).state ∧
    (handleVendSuccess cfg s r1).cmds = (handleVendSuccess cfg s r2).cmds ∧
    (handleVendSuccess cfg s r1).logs = (handleVendSuccess cfg s r2).logs := by
  cases hcv : s.currentVendPrice <;> simp [handleVendSuccess, hcv]

theorem handleNayaxErr_indep (s : LoopState) (r1 r2 : Except String Nat)
    (code : String) (p : PendingVend) :
    (handleNayaxErr s r1 code p).state = (handleNayaxErr s r2 code p).state ∧
    (handleNayaxErr s r1 code p).cmds = (handleNayaxErr s r2 code p).cmds ∧
    (handleNayaxErr s r1 code p).logs = (handleNayaxErr s r2 code p).logs := by
  simp [handleNayaxErr]

theorem handleNayaxResult_indep (cfg : Config) (s : LoopState) (now : ℚ)
    (r1 r2 : Except String Nat) (res : Int) (p : PendingVend) :
    (handleNayaxResult cfg s now r1 res p).state =
      (handleNayaxResult cfg s now r2 res p).state ∧
    (handleNayaxResult cfg s now r1 res p).cmds =
      (handleNayaxResult cfg s now r2 res p).cmds ∧
    (handleNayaxResult cfg s now r1 res p).logs =
      (handleNayaxResult cfg s now r2 res p).logs := by
  by_cases h : res = 1 <;> simp [handleNayaxResult, h]

theorem processLine_indep (cfg : Config) (s : LoopState) (now : ℚ)
    (wl : List Line) (ar : List (List Line)) (r1 r2 : Except String Nat)
    (l : Line) :
    (processLine cfg s now wl ar r1 l).state = (processLine cfg s now wl ar r2 l).state ∧
    (processLine cfg s now wl ar r1 l).cmds = (processLine cfg s now wl ar r2 l).cmds ∧
    (processLine cfg s now wl ar r1 l).logs = (processLine cfg s now wl ar r2 l).logs := by
  cases l with
  | vendSuccess =>
    simpa [processLine, Line.isNIdle, Line.isNCredit, Line.isVmcIdleCredit,
      Line.isVmcIdle, Line.isVmcEnabled] using handleVendSuccess_indep cfg s r1 r2
  | vmcVend price prodRaw prodParsed =>
    simpa [processLine, Line.isNIdle, Line.isNCredit, Line.isVmcIdleCredit,
      Line.isVmcIdle, Line.isVmcEnabled] using
        handleVend_indep cfg s now wl r1 r2 price prodRaw prodParsed
  | nErr code =>
    simp only [processLine, Line.isNIdle, Line.isNCredit, Line.isVmcIdleCredit,
      Line.isVmcIdle, Line.isVmcEnabled, Bool.false_eq_true, if_false]
    cases hp : s.pending with
    | none => simp [hp]
    | some p =>
      cases ha : s.awaitingNayax with
      | false => simp [hp, ha]
      | true => simpa [hp, ha] using handleNayaxErr_indep s r1 r2 code p
  | nResult res =>
    simp only [processLine, Line.isNIdle, Line.isNCredit, Line.isVmcIdleCredit,
      Line.isVmcIdle, Line.isVmcEnabled, Bool.false_eq_true, if_false]
    cases hp : s.pending with
    | none => simp [hp]
    | some p =>
      cases ha : s.awaitingNayax with
      | false => simp [hp, ha]
      | true => simpa [hp, ha] using handleNayaxResult_indep cfg s now r1 r2 res p
  | nIdle => simp [processLine]
  | nCredit => simp [processLine]
  | vmcIdleCredit amount => simp [processLine]
  | vmcIdle => simp [processLine]
  | vmcEnabled => simp [processLine]
  | vmcStartErr code => simp [processLine]
  | other => simp [processLine]

/-- Claim C1, counterexample: at the reachable initial state of the
normal-mode loop, a vend request priced 20.00 exceeds the armed cap of
10.00, yet the iteration emits NO audit-log event at all (the claim
demands exactly one denial log with reason "price exceeds armed
credit"); only the cancel is sent. -/
theorem price_cap_no_log_cex :
    (20 : ℚ) > current_arm_amount cfgNormal (initState cfgNormal) ∧
    (processLine cfgNormal (initState cfgNormal) 100 [] [] (Except.ok 200)
      (Line.vmcVend 20 "5" (some 5))).logs = [] ∧
    (processLine cfgNormal (initState cfgNormal) 100 [] [] (Except.ok 200)
      (Line.vmcVend 20 "5" (some 5))).cmds = [Cmd.cStop] := by
  refine ⟨?_, ?_, ?_⟩ <;>
    norm_num [processLine, handleVend, fallThrough, maybe_arm, initState,
      current_arm_amount, cfgNormal, Line.isNIdle, Line.isNCredit,
      Line.isVmcIdleCredit, Line.isVmcIdle, Line.isVmcEnabled]

/-- Claim C1 (amended): if the price of a vend-request line exceeds the
currently armed cap, the handler sends exactly the cancel `C,STOP` (in
particular no `D,REQ` is ever sent), clears the busy/credit flags and
the vend deadline, leaves the pending field untouched (no new
PendingVend is created), and emits NO audit-log event. -/
theorem price_cap_rejects_silently (cfg : Config) (s : LoopState) (now : ℚ)
    (wl : List Line) (ar : List (List Line)) (netRes : Except String Nat)
    (price : ℚ) (prodRaw : String) (prodParsed : Option Int)
    (h : price > current_arm_amount cfg s) :
    processLine cfg s now wl ar netRes (Line.vmcVend price prodRaw prodParsed) =
      { state := { s with vmcBusy := false, vmcHasCredit := false
                          vmcCreditTs := 0, vmcVendDeadline := 0 }
        cmds := [Cmd.cStop], logs := [], prints := [] } := by
  have h2 : price > current_arm_amount cfg { s with vmcBusy := true } := by
    simpa [current_arm_amount] using h
  simp [processLine, handleVend, Line.isNIdle, Line.isNCredit, Line.isVmcIdleCredit,
    Line.isVmcIdle, Line.isVmcEnabled, if_pos h2]

/-- Witness for price_cap_rejects_silently at a concrete over-cap
request. -/
theorem price_cap_rejects_silently_witness :
    processLine cfgNormal (initState cfgNormal) 5 [] [] (Except.ok 200)
        (Line.vmcVend 20 "9" (some 9)) =
      { state :=
          { initState cfgNormal with
              vmcBusy := false, vmcHasCredit := false
              vmcCreditTs := 0, vmcVendDeadline := 0 }
        cmds := [Cmd.cStop], logs := [], prints := [] } :=
  price_cap_rejects_silently cfgNormal (initState cfgNormal) 5 [] [] (Except.ok 200)
    20 "9" (some 9)
    (by norm_num [current_arm_amount, initState, cfgNormal])

/-- Claim C2, counterexample: running the loop from its initial state
through `traceToPending` reaches `statePending`, whose PendingVend for
the 1.00 vend of product 7 is still unresolved (awaiting Nayax); the
second vend-request line `secondVend` then silently overwrites it with
the 2.00 vend of product 8 and issues a second `D,REQ`, with no
resolution of the first. -/
theorem pending_overwrite_cex :
    (runLoop cfgNormal (initState cfgNormal) traceToPending).state = statePending ∧
    statePending.pending = some { price := 1, vmcProdRaw := "7", nayaxProd := 7 } ∧
    statePending.awaitingNayax = true ∧
    (stepIter cfgNormal statePending secondVend (Except.ok 200)).state.pending =
      some { price := 2, vmcProdRaw := "8", nayaxProd := 8 } ∧
    (stepIter cfgNormal statePending secondVend (Except.ok 200)).cmds =
      [Cmd.dReq 2 8] := by
  refine ⟨?_, rfl, rfl, ?_, ?_⟩ <;>
    norm_num [runLoop, stepIter, watchdogs, staleCheck, vmcWatchdog, nayaxWatchdog,
      processLine, handleVend, fallThrough, maybe_arm, arm_credit_safe, armLoop,
      armAttempts, attemptObserve, creditWaitScan, initState, current_arm_amount,
      cfgNormal, traceToPending, secondVend, statePending, Line.isNIdle,
      Line.isNCredit, Line.isVmcIdleCredit, Line.isVmcIdle, Line.isVmcEnabled,
      Line.isVmcStartErr] <;> try rfl

/-- Claim C2 (amended): pending is a single optional slot, so at most
one PendingVend exists at a time; but a vend-request line arriving
while a PendingVend is still unresolved silently overwrites it: the
handler installs the new record and issues a new `D,REQ` without
resolving the previous one. -/
theorem pending_overwrite (cfg : Config) (s : LoopState) (now : ℚ)
    (wl : List Line) (ar : List (List Line)) (netRes : Except String Nat)
    (price : ℚ) (prodRaw : String) (prodParsed : Option Int) (p : PendingVend)
    (hp : s.pending = some p) (ha : s.awaitingNayax = true)
    (hcomp : s.compActive = false)
    (hcap : ¬ price > current_arm_amount cfg s)
    (hready : s.nayaxCreditReady = true) :
    (processLine cfg s now wl ar netRes
        (Line.vmcVend price prodRaw prodParsed)).state.pending =
      some { price := price, vmcProdRaw := prodRaw
             nayaxProd := ((prodParsed.getD 0) % 256).toNat } ∧
    (processLine cfg s now wl ar netRes
        (Line.vmcVend price prodRaw prodParsed)).cmds =
      [Cmd.dReq price (((prodParsed.getD 0) % 256).toNat)] := by
  have hcap3 : ¬ cfg.maxCredit < price := by
    simpa [current_arm_amount, hcomp] using hcap
  constructor <;>
    simp [processLine, handleVend, Line.isNIdle, Line.isNCredit, Line.isVmcIdleCredit,
      Line.isVmcIdle, Line.isVmcEnabled, current_arm_amount, hcap3, hcomp, hready]

/-- Witness for pending_overwrite at the reachable state
`statePending`. -/
theorem pending_overwrite_witness :
    (processLine cfgNormal statePending 3 [] [] (Except.ok 200)
        (Line.vmcVend 2 "8" (some 8))).state.pending =
      some { price := 2, vmcProdRaw := "8"
             nayaxProd := (((some (8 : Int)).getD 0) % 256).toNat } ∧
    (processLine cfgNormal statePending 3 [] [] (Except.ok 200)
        (Line.vmcVend 2 "8" (some 8))).cmds =
      [Cmd.dReq 2 ((((some (8 : Int)).getD 0) % 256).toNat)] :=
  pending_overwrite cfgNormal statePending 3 [] [] (Except.ok 200) 2 "8" (some 8)
    { price := 1, vmcProdRaw := "7", nayaxProd := 7 } rfl rfl rfl
    (by norm_num [current_arm_amount, statePending, cfgNormal]) rfl

/-- Claim C3, counterexample: in comp mode a vend request at time 0 is
approved with a vend-completion deadline of 25 and a recorded vend
price; at time 100, with no serial line at all, the vend watchdog fires
and sends `C,STOP` and `D,END`, but emits NO audit log whatsoever (the
claim demands a denial log with a timeout reason for either expiring
deadline). -/
theorem vend_watchdog_no_log_cex :
    (stepIter cfgComp (initState cfgComp) compVendStep
        (Except.ok 200)).state.currentVendPrice = some (1 / 4) ∧
    (stepIter cfgComp (initState cfgComp) compVendStep
        (Except.ok 200)).state.vmcBusy = true ∧
    (stepIter cfgComp (initState cfgComp) compVendStep
        (Except.ok 200)).state.vmcVendDeadline = 25 ∧
    (stepIter cfgComp
        (stepIter cfgComp (initState cfgComp) compVendStep (Except.ok 200)).state
        silentStep (Except.ok 200)).logs = [] ∧
    (stepIter cfgComp
        (stepIter cfgComp (initState cfgComp) compVendStep (Except.ok 200)).state
        silentStep (Except.ok 200)).cmds.take 2 = [Cmd.cStop, Cmd.dEnd] := by
  refine ⟨?_, ?_, ?_, ?_, ?_⟩ <;>
    norm_num [stepIter, watchdogs, staleCheck, vmcWatchdog, nayaxWatchdog,
      processLine, handleVend, fallThrough, maybe_arm, arm_credit_safe, armLoop,
      armAttempts, attemptObserve, creditWaitScan, initState, current_arm_amount,
      cfgComp, compVendStep, silentStep, Line.isNIdle, Line.isNCredit,
      Line.isVmcIdleCredit, Line.isVmcIdle, Line.isVmcEnabled, Line.isVmcStartErr]

/-- Claim C3 (amended): whenever the VMC vend deadline or the Nayax
authorization deadline has expired, the next loop iteration - here one
in which no serial line was received - sends `C,STOP` and `D,END` to
the transport exactly once each, clears the PendingVend, the awaiting
flag, the vend deadline and the vend context; a denial log with reason
nayax_timeout is emitted exactly when it is the authorization deadline
that fired (with a recorded vend price), while the vend-completion
watchdog emits no log at all. -/
theorem watchdog_expiry (cfg : Config) (s : LoopState) (now : ℚ)
    (ar : List (List Line)) (netRes : Except String Nat)
    (h : vmcWatchdogFires s now ∨ nayaxWatchdogFires s now) :
    (stepIter cfg s ⟨now, RawInput.noLine, [], ar⟩ netRes).cmds.count Cmd.cStop = 1 ∧
    (stepIter cfg s ⟨now, RawInput.noLine, [], ar⟩ netRes).cmds.count Cmd.dEnd = 1 ∧
    (stepIter cfg s ⟨now, RawInput.noLine, [], ar⟩ netRes).state.pending = none ∧
    (stepIter cfg s ⟨now, RawInput.noLine, [], ar⟩ netRes).state.awaitingNayax = false ∧
    (stepIter cfg s ⟨now, RawInput.noLine, [], ar⟩ netRes).state.vmcVendDeadline = 0 ∧
    (stepIter cfg s ⟨now, RawInput.noLine, [], ar⟩ netRes).state.currentVendPrice = none ∧
    (vmcWatchdogFires s now →
      (stepIter cfg s ⟨now, RawInput.noLine, [], ar⟩ netRes).logs = []) ∧
    (¬ vmcWatchdogFires s now →
      (stepIter cfg s ⟨now, RawInput.noLine, [], ar⟩ netRes).logs =
        (match s.currentVendPrice with
         | some price =>
           [{ eventType := "nayax_payment.denied", price := price
              nayaxProd := s.currentVendNayaxProd
              reason := some "nayax_timeout", compMode := false }]
         | none => [])) := by
  obtain ⟨hcmds, hpend, haw, hvd, hcvp, hbusy, hlog1, hlog2⟩ :=
    watchdogs_fires cfg s now netRes h
  obtain ⟨mp, ma, mv, mc, mb⟩ :=
    maybe_arm_frame cfg (watchdogs cfg s now netRes).state now ar
  have harm : ∀ c ∈ (maybe_arm cfg (watchdogs cfg s now netRes).state now ar).2,
      c = Cmd.cStart (current_arm_amount cfg (watchdogs cfg s now netRes).state) :=
    fun c hc => maybe_arm_mem_cStart _ _ _ _ c hc
  have hstop : (maybe_arm cfg (watchdogs cfg s now netRes).state now ar).2.count
      Cmd.cStop = 0 := by
    rw [List.count_eq_zero]
    intro hmem
    have := harm _ hmem
    simp at this
  have hend : (maybe_arm cfg (watchdogs cfg s now netRes).state now ar).2.count
      Cmd.dEnd = 0 := by
    rw [List.count_eq_zero]
    intro hmem
    have := harm _ hmem
    simp at this
  refine ⟨?_, ?_, ?_, ?_, ?_, ?_, ?_, ?_⟩
  · simp [stepIter, List.count_append, hcmds, hstop]
  · simp [stepIter, List.count_append, hcmds, hend]
  · simp [stepIter, mp, hpend]
  · simp [stepIter, ma, haw]
  · simp [stepIter, mv, hvd]
  · simp [stepIter, mc, hcvp]
  · intro hv; simp [stepIter, hlog1 hv]
  · intro hnv; simp [stepIter, hlog2 hnv]

/-- Witness for watchdog_expiry at the reachable state `statePending`
with both deadlines long expired at time 100. -/
theorem watchdog_expiry_witness :
    (stepIter cfgNormal statePending ⟨100, RawInput.noLine, [], []⟩
        (Except.ok 200)).cmds.count Cmd.cStop = 1 ∧
    (stepIter cfgNormal statePending ⟨100, RawInput.noLine, [], []⟩
        (Except.ok 200)).cmds.count Cmd.dEnd = 1 ∧
    (stepIter cfgNormal statePending ⟨100, RawInput.noLine, [], []⟩
        (Except.ok 200)).state.pending = none ∧
    (stepIter cfgNormal statePending ⟨100, RawInput.noLine, [], []⟩
        (Except.ok 200)).state.awaitingNayax = false ∧
    (stepIter cfgNormal statePending ⟨100, RawInput.noLine, [], []⟩
        (Except.ok 200)).state.vmcVendDeadline = 0 ∧
    (stepIter cfgNormal statePending ⟨100, RawInput.noLine, [], []⟩
        (Except.ok 200)).state.currentVendPrice = none ∧
    (vmcWatchdogFires statePending 100 →
      (stepIter cfgNormal statePending ⟨100, RawInput.noLine, [], []⟩
        (Except.ok 200)).logs = []) ∧
    (¬ vmcWatchdogFires statePending 100 →
      (stepIter cfgNormal statePending ⟨100, RawInput.noLine, [], []⟩
        (Except.ok 200)).logs =
        (match statePending.currentVendPrice with
         | some price =>
           [{ eventType := "nayax_payment.denied", price := price
              nayaxProd := statePending.currentVendNayaxProd
              reason := some "nayax_timeout", compMode := false }]
         | none => [])) :=
  watchdog_expiry cfgNormal statePending 100 [] (Except.ok 200)
    (Or.inl ⟨rfl, by norm_num [statePending], by norm_num [statePending]⟩)

/-- Claim C4 (confirmed): while an authorization is outstanding, a
RESULT line with code 1 sends the approve-at-price `C,VEND` and keeps
the vend context alive (busy flag untouched, vend price recorded)
awaiting the VMC success line; a RESULT with any other code sends the
cancel and immediately logs the denial with the specific reason code;
an ERR line likewise; and all three terminal cases send `D,END`
afterwards and clear the awaiting flag and the pending record. -/
theorem auth_result_terminal (cfg : Config) (s : LoopState) (now : ℚ)
    (wl : List Line) (ar : List (List Line)) (netRes : Except String Nat)
    (p : PendingVend) (hp : s.pending = some p) (ha : s.awaitingNayax = true) :
    (processLine cfg s now wl ar netRes (Line.nResult 1) =
      { state :=
          { s with currentVendPrice := some p.price
                   currentVendNayaxProd := some p.nayaxProd
                   currentVendCompMode := false
                   vmcVendDeadline := now + cfg.vmcVendTimeout
                   awaitingNayax := false, pending := none
                   vmcHasCredit := false, vmcCreditTs := 0 }
        cmds := [Cmd.cVend p.price, Cmd.dEnd], logs := [], prints := [] }) ∧
    (∀ res : Int, res ≠ 1 →
      processLine cfg s now wl ar netRes (Line.nResult res) =
        { state :=
            { s with currentVendPrice := none, currentVendNayaxProd := none
                     currentVendCompMode := false, vmcBusy := false
                     vmcVendDeadline := 0, awaitingNayax := false, pending := none
                     vmcHasCredit := false, vmcCreditTs := 0 }
          cmds := [Cmd.cStop, Cmd.dEnd]
          logs := [{ eventType := "nayax_payment.denied", price := p.price
                     nayaxProd := some p.nayaxProd
                     reason := some ("nayax_denied_res_" ++ toString res)
                     compMode := false }]
          prints := [log_vend_event netRes
            { eventType := "nayax_payment.denied", price := p.price
              nayaxProd := some p.nayaxProd
              reason := some ("nayax_denied_res_" ++ toString res)
              compMode := false }] }) ∧
    (∀ code : String,
      processLine cfg s now wl ar netRes (Line.nErr code) =
        { state :=
            { s with awaitingNayax := false, pending := none
                     vmcHasCredit := false, vmcCreditTs := 0
                     vmcBusy := false, vmcVendDeadline := 0
                     currentVendPrice := none, currentVendNayaxProd := none
                     currentVendCompMode := false }
          cmds := [Cmd.cStop, Cmd.dEnd]
          logs := [{ eventType := "nayax_payment.denied", price := p.price
                     nayaxProd := some p.nayaxProd
                     reason := some ("nayax_err_" ++ code), compMode := false }]
          prints := [log_vend_event netRes
            { eventType := "nayax_payment.denied", price := p.price
              nayaxProd := some p.nayaxProd
              reason := some ("nayax_err_" ++ code), compMode := false }] }) := by
  refine ⟨?_, ?_, ?_⟩
  · simp [processLine, handleNayaxResult, Line.isNIdle, Line.isNCredit,
      Line.isVmcIdleCredit, Line.isVmcIdle, Line.isVmcEnabled, hp, ha]
  · intro res hres
    simp [processLine, handleNayaxResult, Line.isNIdle, Line.isNCredit,
      Line.isVmcIdleCredit, Line.isVmcIdle, Line.isVmcEnabled, hp, ha, hres]
  · intro code
    simp [processLine, handleNayaxErr, Line.isNIdle, Line.isNCredit,
      Line.isVmcIdleCredit, Line.isVmcIdle, Line.isVmcEnabled, hp, ha]

/-- Witness for auth_result_terminal: an approval at the reachable
state `statePending` sends the approve-at-price command and the
end-session command. -/
theorem auth_result_terminal_witness :
    (processLine cfgNormal statePending 3 [] [] (Except.ok 200)
        (Line.nResult 1)).cmds = [Cmd.cVend 1, Cmd.dEnd] := by
  have h := auth_result_terminal cfgNormal statePending 3 [] [] (Except.ok 200)
    { price := 1, vmcProdRaw := "7", nayaxProd := 7 } rfl rfl
  rw [h.1]

/-- Claim C5, counterexample: the arming routine succeeds on an
IDLE-with-credit line whose amount 9.99 differs from the armed amount
0.25 - success is NOT conditioned on observing the exact armed amount,
contrary to the claim. -/
theorem arm_any_amount_cex :
    (arm_credit_safe (1 / 4) [[Line.vmcIdleCredit (999 / 100)]]).1 = true ∧
    (999 / 100 : ℚ) ≠ (1 / 4 : ℚ) := by
  constructor
  · norm_num [arm_credit_safe, armLoop, armAttempts, attemptObserve,
      Line.isVmcIdleCredit]
  · norm_num

/-- Claim C5 (amended): the routine makes exactly 12 attempts (each
sending the arm command and observing its response window of about
0.9 seconds, with a fixed 0.4 second backoff between attempts), returns
success exactly when some attempt observes an IDLE-with-credit line -
any credit amount, the armed amount is not verified; a rejection
response ends the inner wait of its attempt; and when every attempt
fails the routine reports failure and the caller records no credit. -/
theorem arm_credit_retry_spec :
    (∀ (credit : ℚ) (resps : List (List Line)),
      (arm_credit_safe credit resps).1 = (resps.take armAttempts).any attemptObserve) ∧
    armAttempts = 12 ∧ armObserveWindow = 9 / 10 ∧ armBackoff = 2 / 5 ∧
    (∀ (code : Int) (rest : List Line),
      attemptObserve (Line.vmcStartErr code :: rest) = false) ∧
    (∀ (cfg : Config) (s : LoopState) (now : ℚ) (resps : List (List Line)),
      s.vmcBusy = false → s.vmcHasCredit = false →
      (arm_credit_safe (current_arm_amount cfg s) resps).1 = false →
      (maybe_arm cfg s now resps).1.vmcHasCredit = false) := by
  refine ⟨fun credit resps => armLoop_result credit armAttempts resps,
    rfl, rfl, rfl, ?_, ?_⟩
  · intro code rest
    simp [attemptObserve, Line.isVmcIdleCredit, Line.isVmcStartErr]
  · intro cfg s now resps hb hc hfail
    by_cases h2 : s.compActive = false ∧ s.nayaxCreditReady = false
    · simp [maybe_arm, hb, hc, h2]
    · simp [maybe_arm, hb, hc, h2, hfail]

/-- Witness for arm_credit_retry_spec: with no responses at all, every
attempt fails and the caller is left with no credit recorded. -/
theorem arm_credit_retry_spec_witness :
    (maybe_arm cfgNormal stateReady 0 []).1.vmcHasCredit = false := by
  have h := arm_credit_retry_spec
  exact h.2.2.2.2.2 cfgNormal stateReady 0 [] rfl rfl (by rw [h.1]; simp)

/-- Claim C6 (confirmed): with comp mode active and the one-shot flag
set, a VMC success line deactivates comp mode; and once comp mode is
inactive, any vend-request line follows the normal path - its only
possible immediate commands are the cancel (price cap or missing
session) or the authorization request `D,REQ`, never the comp
approve-at-price. -/
theorem comp_oneshot_consumed (cfg : Config) (s : LoopState) (now : ℚ)
    (wl : List Line) (ar : List (List Line)) (netRes : Except String Nat) :
    (s.compActive = true → cfg.compOneShot = true →
      (processLine cfg s now wl ar netRes Line.vendSuccess).state.compActive = false) ∧
    (s.compActive = false →
      ∀ (price : ℚ) (prodRaw : String) (prodParsed : Option Int),
      (processLine cfg s now wl ar netRes (Line.vmcVend price prodRaw prodParsed)).cmds
          = [Cmd.cStop] ∨
      (processLine cfg s now wl ar netRes (Line.vmcVend price prodRaw prodParsed)).cmds
          = [Cmd.dReq price (((prodParsed.getD 0) % 256).toNat)]) := by
  constructor
  · intro hc ho
    cases h : s.currentVendPrice <;>
      simp [processLine, handleVendSuccess, Line.isNIdle, Line.isNCredit,
        Line.isVmcIdleCredit, Line.isVmcIdle, Line.isVmcEnabled, hc, ho, h]
  · intro hc price prodRaw prodParsed
    by_cases hcap : cfg.maxCredit < price
    · left
      simp [processLine, handleVend, current_arm_amount, Line.isNIdle,
        Line.isNCredit, Line.isVmcIdleCredit, Line.isVmcIdle, Line.isVmcEnabled,
        hc, hcap]
    · by_cases hr : (s.nayaxCreditReady || creditWaitScan wl) = true
      · right
        simp [processLine, handleVend, current_arm_amount, Line.isNIdle,
          Line.isNCredit, Line.isVmcIdleCredit, Line.isVmcIdle, Line.isVmcEnabled,
          hc, hcap, hr]
      · left
        simp [processLine, handleVend, current_arm_amount, Line.isNIdle,
          Line.isNCredit, Line.isVmcIdleCredit, Line.isVmcIdle, Line.isVmcEnabled,
          hc, hcap, hr]

/-- Witness for comp_oneshot_consumed: a success line under the
one-shot comp configuration turns comp mode off, and a vend request in
the comp-inactive initial state takes one of the two normal-path
command shapes. -/
theorem comp_oneshot_consumed_witness :
    (processLine cfgCompOne (initState cfgCompOne) 0 [] [] (Except.ok 200)
        Line.vendSuccess).state.compActive = false ∧
    ((processLine cfgNormal (initState cfgNormal) 0 [] [] (Except.ok 200)
        (Line.vmcVend 1 "7" (some 7))).cmds = [Cmd.cStop] ∨
     (processLine cfgNormal (initState cfgNormal) 0 [] [] (Except.ok 200)
        (Line.vmcVend 1 "7" (some 7))).cmds =
       [Cmd.dReq 1 ((((some (7 : Int)).getD 0) % 256).toNat)]) :=
  ⟨(comp_oneshot_consumed cfgCompOne (initState cfgCompOne) 0 [] []
      (Except.ok 200)).1 rfl rfl,
   (comp_oneshot_consumed cfgNormal (initState cfgNormal) 0 [] []
      (Except.ok 200)).2 rfl 1 "7" (some 7)⟩

/-- Claim C7 (confirmed): `maybe_arm` does nothing - no command at all,
hence no `C,START` - while the VMC is busy or already has credit, and
in normal mode also while no Nayax credit session is ready; conversely
any `C,START` it emits can only happen with the VMC idle and unarmed
and with comp mode active or a Nayax session ready. -/
theorem arm_only_when_idle_unarmed (cfg : Config) (s : LoopState) (now : ℚ)
    (ar : List (List Line)) :
    (s.vmcBusy = true ∨ s.vmcHasCredit = true →
      maybe_arm cfg s now ar = (s, [])) ∧
    (s.compActive = false → s.nayaxCreditReady = false →
      maybe_arm cfg s now ar = (s, [])) ∧
    (∀ x : ℚ, Cmd.cStart x ∈ (maybe_arm cfg s now ar).2 →
      s.vmcBusy = false ∧ s.vmcHasCredit = false ∧
        (s.compActive = true ∨ s.nayaxCreditReady = true)) := by
  refine ⟨?_, ?_, ?_⟩
  · intro h; simp [maybe_arm, h]
  · intro h1 h2
    cases hb : s.vmcBusy <;> cases hc : s.vmcHasCredit <;>
      simp [maybe_arm, hb, hc, h1, h2]
  · intro x hx
    cases hb : s.vmcBusy <;> cases hc : s.vmcHasCredit <;>
      cases hca : s.compActive <;> cases hr : s.nayaxCreditReady <;>
      simp_all [maybe_arm]

/-- Witness for arm_only_when_idle_unarmed: at the busy state
`statePending` the arming helper is a no-op. -/
theorem arm_only_when_idle_unarmed_witness :
    maybe_arm cfgNormal statePending 0 [] = (statePending, []) :=
  (arm_only_when_idle_unarmed cfgNormal statePending 0 []).1 (Or.inl rfl)

/-- Claim C8 (confirmed): when the product field of a vend request
parses as the integer n, the PendingVend and the `D,REQ` command carry
exactly n modulo 256, a value below 256. -/
theorem prod_code_mod256 (cfg : Config) (s : LoopState) (now : ℚ)
    (wl : List Line) (ar : List (List Line)) (netRes : Except String Nat)
    (price : ℚ) (prodRaw : String) (n : Int)
    (hcomp : s.compActive = false)
    (hcap : ¬ price > current_arm_amount cfg s)
    (hready : s.nayaxCreditReady = true) :
    (processLine cfg s now wl ar netRes
        (Line.vmcVend price prodRaw (some n))).state.pending =
      some { price := price, vmcProdRaw := prodRaw, nayaxProd := (n % 256).toNat } ∧
    (processLine cfg s now wl ar netRes
        (Line.vmcVend price prodRaw (some n))).cmds =
      [Cmd.dReq price ((n % 256).toNat)] ∧
    (n % 256).toNat < 256 := by
  have hcap3 : ¬ cfg.maxCredit < price := by
    simpa [current_arm_amount, hcomp] using hcap
  refine ⟨?_, ?_, ?_⟩
  · simp [processLine, handleVend, Line.isNIdle, Line.isNCredit,
      Line.isVmcIdleCredit, Line.isVmcIdle, Line.isVmcEnabled,
      current_arm_amount, hcap3, hcomp, hready]
  · simp [processLine, handleVend, Line.isNIdle, Line.isNCredit,
      Line.isVmcIdleCredit, Line.isVmcIdle, Line.isVmcEnabled,
      current_arm_amount, hcap3, hcomp, hready]
  · have h1 : 0 ≤ n % 256 := Int.emod_nonneg n (by norm_num)
    have h2 : n % 256 < 256 := Int.emod_lt_of_pos n (by norm_num)
    omega

/-- Witness for prod_code_mod256: product field 300 is reduced to
300 mod 256 = 44 in both the PendingVend and the `D,REQ` command. -/
theorem prod_code_mod256_witness :
    (processLine cfgNormal stateReady 0 [] [] (Except.ok 200)
        (Line.vmcVend 1 "300" (some 300))).state.pending =
      some { price := 1, vmcProdRaw := "300"
             nayaxProd := ((300 : Int) % 256).toNat } ∧
    (processLine cfgNormal stateReady 0 [] [] (Except.ok 200)
        (Line.vmcVend 1 "300" (some 300))).cmds =
      [Cmd.dReq 1 (((300 : Int) % 256).toNat)] ∧
    ((300 : Int) % 256).toNat < 256 :=
  prod_code_mod256 cfgNormal stateReady 0 [] [] (Except.ok 200) 1 "300" 300
    rfl (by norm_num [current_arm_amount, stateReady, initState, cfgNormal]) rfl

/-- Claim C9 (confirmed): the audit-log call never raises - a failing
network interaction is caught and only turns into the printed failure
line - and the outcome of the call has no effect whatsoever on the
protocol state, the transport commands, or the emitted log events of a
loop iteration. -/
theorem log_failure_isolated (cfg : Config) (s : LoopState) (inp : IterInput)
    (r1 r2 : Except String Nat) (e : String) (ev : LogEvent) :
    (stepIter cfg s inp r1).state = (stepIter cfg s inp r2).state ∧
    (stepIter cfg s inp r1).cmds = (stepIter cfg s inp r2).cmds ∧
    (stepIter cfg s inp r1).logs = (stepIter cfg s inp r2).logs ∧
    log_vend_event (Except.error e) ev = "⚠️ Failed to log vend event: " ++ e := by
  obtain ⟨w1, w2, w3⟩ := watchdogs_indep cfg s inp.now r1 r2
  cases hin : inp.input with
  | noLine =>
    refine ⟨?_, ?_, ?_, rfl⟩ <;> simp [stepIter, hin, w1, w2, w3]
  | blank =>
    refine ⟨?_, ?_, ?_, rfl⟩ <;> simp [stepIter, hin, w1, w2, w3]
  | line l =>
    obtain ⟨p1, p2, p3⟩ :=
      processLine_indep cfg (watchdogs cfg s inp.now r2).state inp.now
        inp.waitLines inp.armResps r1 r2 l
    refine ⟨?_, ?_, ?_, rfl⟩ <;>
      simp [stepIter, hin, w1, w2, w3, p1, p2, p3]

/-- Claim C10 (confirmed): a `c,VEND,SUCCESS` line with no recorded
vend price logs nothing, yet still clears the busy flag, the credit
flag and timestamp, and the vend deadline, still consumes one-shot comp
mode, and leaves the awaiting flag and the pending record (and all
other Nayax-side fields) unchanged. -/
theorem vend_success_no_pending_frame (cfg : Config) (s : LoopState) (now : ℚ)
    (wl : List Line) (ar : List (List Line)) (netRes : Except String Nat)
    (h : s.currentVendPrice = none) :
    processLine cfg s now wl ar netRes Line.vendSuccess =
      { state :=
          { s with
              vmcBusy := false, vmcHasCredit := false, vmcCreditTs := 0
              vmcVendDeadline := 0, currentVendPrice := none
              currentVendNayaxProd := none, currentVendCompMode := false
              compActive := s.compActive && !cfg.compOneShot }
        cmds := [], logs := [], prints := [] } := by
  simp only [processLine, handleVendSuccess, Line.isNIdle, Line.isNCredit,
    Line.isVmcIdleCredit, Line.isVmcIdle, Line.isVmcEnabled, h]
  cases hc : s.compActive <;> cases ho : cfg.compOneShot <;> simp [hc, ho, h]

/-- Witness for vend_success_no_pending_frame at the initial state,
which has no recorded vend price. -/
theorem vend_success_no_pending_frame_witness :
    processLine cfgNormal (initState cfgNormal) 0 [] [] (Except.ok 200)
        Line.vendSuccess =
      { state :=
          { initState cfgNormal with
              vmcBusy := false, vmcHasCredit := false, vmcCreditTs := 0
              vmcVendDeadline := 0, currentVendPrice := none
              currentVendNayaxProd := none, currentVendCompMode := false
              compActive := (initState cfgNormal).compActive && !cfgNormal.compOneShot }
        cmds := [], logs := [], prints := [] } :=
  vend_success_no_pending_frame cfgNormal (initState cfgNormal) 0 [] []
    (Except.ok 200) rfl

end Vobox
